import Mathlib

/-!
# Verification of the HST birthday downloader pipeline

Shallow embedding of the two-stage scraping pipeline:
* stage 1 (`download.js`): per-record download orchestration, resumability
  check, asset-filename classification, retrying file downloader;
* stage 2 (enricher script): per-folder enrichment preconditions.

File-system effects are made explicit: each modelled operation returns its
result together with a record of the effects it performed (navigations,
download attempts, files written, metadata writes).
-/

namespace HstBday

/-! ## String helpers mirroring the JavaScript primitives used by the code -/

/-- JavaScript `String.prototype.endsWith`: suffix test on the character data. -/
def endsWithExt (f ext : String) : Bool :=
  ext.data.isSuffixOf f.data

/-- JavaScript `str.split(' ')` on character lists: split at every space,
keeping empty segments. -/
def splitOnSpaceAux (acc : List Char) : List Char → List (List Char)
  | [] => [acc.reverse]
  | c :: cs =>
    if c = ' ' then acc.reverse :: splitOnSpaceAux [] cs
    else splitOnSpaceAux (c :: acc) cs

def splitOnSpace (l : List Char) : List (List Char) :=
  splitOnSpaceAux [] l

/-- JavaScript `String.prototype.padStart(2, '0')`. -/
def padStart2 (l : List Char) : List Char :=
  if 2 ≤ l.length then l else List.replicate (2 - l.length) '0' ++ l

/-- Decimal value of a list of digit characters (most significant first). -/
def digitsToNat (l : List Char) : Nat :=
  l.foldl (fun acc c => acc * 10 + (c.toNat - '0'.toNat)) 0

/-- JavaScript `parseInt` restricted to what the code feeds it: reads the
leading run of decimal digits; `none` models `NaN` (no leading digit). -/
def jsParseInt (l : List Char) : Option Nat :=
  let digits := l.takeWhile Char.isDigit
  if digits.isEmpty then none else some (digitsToNat digits)

/-- JavaScript `NaN`-tolerant `≥` used on `parseInt(width)`: comparisons
against `NaN` are false. -/
def jsGe (o : Option Nat) (n : Nat) : Bool :=
  match o with
  | some w => n ≤ w
  | none => false

/-! ## Date-key derivation (`parseDateToFolder`, download.js lines 12-25) -/

/-- The `MONTHS` lookup object of download.js. -/
def MONTHS : List (String × String) :=
  [("January", "01"), ("February", "02"), ("March", "03"), ("April", "04"),
   ("May", "05"), ("June", "06"), ("July", "07"), ("August", "08"),
   ("September", "09"), ("October", "10"), ("November", "11"), ("December", "12")]

/-- `MONTHS[parts[0]]`: property lookup, `none` models `undefined`. -/
def monthLookup (s : String) : Option String :=
  (MONTHS.find? (fun p => p.1 = s)).map (·.2)

/-- `parseDateToFolder` (download.js lines 20-25).  `parts[1].padStart` throws
a `TypeError` when the string has no space (`parts[1]` is `undefined`); the
`none` result models that exception.  A failed month lookup interpolates as
the string `"undefined"`, exactly as JavaScript template literals do. -/
def parseDateToFolder (dateStr : String) : Option String :=
  match splitOnSpace dateStr.data with
  | p0 :: p1 :: _ =>
    let month := monthLookup (String.mk p0)
    some (String.mk (((month.map String.data).getD "undefined".data)
      ++ '-' :: padStart2 p1))
  | _ => none

/-! ## Retrying file downloader (`downloadFile`, download.js lines 47-71)

The network is abstracted as `fetch : Nat → Option Body`, giving for each
attempt number the response body on a successful fetch (status ok), or
`none` when that attempt fails (network error or non-ok status — both raise
in the code and land in the catch block).  The result records the file
content written to the destination (`none` = nothing written), the delays
awaited, and the attempt numbers at which a fetch was issued. -/

abbrev Body := List Nat

def MAX_RETRIES : Nat := 3

structure DLResult where
  success : Bool
  written : Option Body
  waits : List Nat
  fetchCalls : List Nat
  deriving DecidableEq, Repr

/-- One pass over the remaining attempt numbers.  Mirrors the loop body:
on a successful fetch the body is written and the loop returns `true`;
on failure, if this was the last attempt return `false`, otherwise wait
`500 × attempt` and continue. -/
def runAttempts (fetch : Nat → Option Body) : List Nat → DLResult
  | [] => ⟨false, none, [], []⟩
  | a :: rest =>
    match fetch a with
    | some body => ⟨true, some body, [], [a]⟩
    | none =>
      if rest.isEmpty then ⟨false, none, [], [a]⟩
      else
        let r := runAttempts fetch rest
        ⟨r.success, r.written, 500 * a :: r.waits, a :: r.fetchCalls⟩

/-- `downloadFile(url, destPath, retries)`: attempts are numbered 1..retries. -/
def downloadFile (fetch : Nat → Option Body) (retries : Nat) : DLResult :=
  runAttempts fetch (List.range' 1 retries)

/-! ## Asset descriptors and filename classification
(download.js lines 252-269, inside `processRow`) -/

inductive AssetType where
  | pdf
  | jpg
  deriving DecidableEq, Repr

/-- The shape pushed by the extractor (download.js lines 127-132): `type` is
`pdf` iff the item text contains "pdf", `resolution` is the `"WxH"` string
rebuilt from the regex digits, or `null`. -/
structure AssetDescriptor where
  url : String
  type : AssetType
  resolution : Option String
  deriving DecidableEq, Repr

/-- `download.resolution.split('x')[0]` followed by `parseInt`. -/
def widthOf (res : String) : Option Nat :=
  jsParseInt (res.data.takeWhile (fun c => c ≠ 'x'))

/-- The filename chosen for one asset, given the running count of successful
downloads so far (download.js lines 253-269). -/
def classifyFilename (d : AssetDescriptor) (downloadedCount : Nat) : String :=
  if d.type = AssetType.pdf then "image.pdf"
  else
    match d.resolution with
    | some res =>
      if jsGe (widthOf res) 2000 then "full.jpg"
      else if jsGe (widthOf res) 800 then "thumb_1000.jpg"
      else if jsGe (widthOf res) 300 then "thumb_400.jpg"
      else "thumb_200.jpg"
    | none => "image_" ++ toString downloadedCount ++ ".jpg"

/-! ## Download loop of `processRow` (download.js lines 251-274)

Per-asset download outcomes are abstracted as `ok : Nat → Bool`, indexed by
the asset's position in the `downloads` list (`ok i` is the boolean that
`downloadFile` returns for asset `i`; by the downloader's contract nothing
is written for an asset whose overall download failed). -/

structure LoopResult where
  downloadedCount : Nat
  assigned : List String
  written : List String
  deriving DecidableEq, Repr

/-- The loop: compute a filename from the current `downloadedCount`, attempt
the download, and increment the count only on success.  `assigned` lists the
destination filename chosen for every asset in order; `written` the
filenames of the assets whose download succeeded. -/
def downloadLoop (ok : Nat → Bool) : Nat → Nat → List AssetDescriptor → LoopResult
  | _, count, [] => ⟨count, [], []⟩
  | idx, count, d :: rest =>
    let fn := classifyFilename d count
    if ok idx then
      let r := downloadLoop ok (idx + 1) (count + 1) rest
      ⟨r.downloadedCount, fn :: r.assigned, fn :: r.written⟩
    else
      let r := downloadLoop ok (idx + 1) count rest
      ⟨r.downloadedCount, fn :: r.assigned, r.written⟩

/-! ## Stage-1 record processing (`processRow`, download.js lines 177-287) -/

/-- What the extractor returns, restricted to the field `processRow`
branches on. -/
structure PageData where
  downloads : List AssetDescriptor
  deriving DecidableEq, Repr

/-- Outcome of the navigate-and-extract phase (goto, delay, extractMetadata,
and the one-shot `/asset/` fallback): an exception anywhere in it carries a
message into the catch block. -/
inductive NavOutcome where
  | ok (pd : PageData)
  | err (msg : String)
  deriving DecidableEq, Repr

/-- The world one record runs against.  `folderFiles` is the record folder's
listing (`none` when the folder does not exist, so `fs.access`/`fs.readdir`
raise); `assetOk i` abstracts the boolean result of `downloadFile` for asset
`i`; `persistErr` is `some msg` when `fs.writeFile(metadataPath, …)` (or
`fs.mkdir`) raises. -/
structure RowWorld where
  folderFiles : Option (List String)
  nav : NavOutcome
  assetOk : Nat → Bool
  persistErr : Option String

/-- The value `processRow` resolves to: `{success: true, skipped: true}`,
`{success: true, skipped: false}`, or `{success: false, error}`. -/
inductive RowResult where
  | skipped
  | done
  | failed (error : String)
  deriving DecidableEq, Repr

structure RowEffects where
  navigated : Bool
  downloadsAttempted : Nat
  filesWritten : List String
  metadataWritten : Bool
  deriving DecidableEq, Repr

def noEffects : RowEffects := ⟨false, 0, [], false⟩

/-- `files.some(f => f.endsWith('.jpg') || f.endsWith('.pdf'))`
(download.js line 191). -/
def hasImages (files : List String) : Bool :=
  files.any (fun f => endsWithExt f ".jpg" || endsWithExt f ".pdf")

/-- The resumability check (download.js lines 186-200): metadata.json is
accessible and the folder listing contains at least one image file. -/
def shouldSkip (folderFiles : Option (List String)) : Bool :=
  match folderFiles with
  | none => false
  | some files => files.contains "metadata.json" && hasImages files

/-- `processRow`: skip check, then navigation + extraction, then the
download loop, then the unconditional metadata write, with the whole
post-skip body wrapped in try/catch. -/
def processRow (w : RowWorld) : RowResult × RowEffects :=
  if shouldSkip w.folderFiles then (RowResult.skipped, noEffects)
  else
    match w.nav with
    | NavOutcome.err msg => (RowResult.failed msg, ⟨true, 0, [], false⟩)
    | NavOutcome.ok pd =>
      let dl := downloadLoop w.assetOk 0 0 pd.downloads
      match w.persistErr with
      | some msg =>
        (RowResult.failed msg, ⟨true, pd.downloads.length, dl.written, false⟩)
      | none =>
        (RowResult.done, ⟨true, pd.downloads.length, dl.written, true⟩)

/-! ## Stage-1 batch loop (`main`, download.js lines 310-331) -/

structure Stats where
  processed : Nat
  skipped : Nat
  failed : Nat
  deriving DecidableEq, Repr

/-- Counter update for one record's result (download.js lines 317-325). -/
def statsStep (s : Stats) (r : RowResult) : Stats :=
  match r with
  | RowResult.skipped => ⟨s.processed, s.skipped + 1, s.failed⟩
  | RowResult.done => ⟨s.processed + 1, s.skipped, s.failed⟩
  | RowResult.failed _ => ⟨s.processed, s.skipped, s.failed + 1⟩

/-- The stage-1 loop over all records, each abstracted by its `RowWorld`. -/
def runStage1 (ws : List RowWorld) : Stats :=
  ws.foldl (fun s w => statsStep s (processRow w).1) ⟨0, 0, 0⟩

/-- Folder listing after a non-skipped record ran to `done`: the files the
download loop wrote plus `metadata.json`, alongside whatever was already
there. -/
def folderAfterRun (w : RowWorld) : List String :=
  "metadata.json" :: (processRow w).2.filesWritten ++ w.folderFiles.getD []

/-! ## Stage-2 enrichment (`processFolder`, enricher script lines 67-180) -/

/-- The single metadata field stage 2's precondition branches on.  `none`
models a missing/`null` `finalUrl` property. -/
structure S2Meta where
  finalUrl : Option String
  deriving DecidableEq, Repr

/-- Outcome of `fs.readFile(metadataPath)` + `JSON.parse`: the file may be
absent (read raises), present but not valid JSON (parse raises), or parsed. -/
inductive MetaRead where
  | absent
  | corrupt
  | parsed (m : S2Meta)
  deriving DecidableEq, Repr

/-- JavaScript truthiness of `metadata.finalUrl`: `undefined`/`null` and the
empty string are falsy. -/
def jsTruthy (o : Option String) : Bool :=
  match o with
  | none => false
  | some s => !(s == "")

/-- World one folder runs against in stage 2: whether video-content.json is
already present, the outcome of reading metadata.json, the outcome of the
navigate-and-extract phase, and whether the enriched write raises. -/
structure S2World where
  enrichedExists : Bool
  meta : MetaRead
  nav : NavOutcome
  persistErr : Option String

structure S2Effects where
  navigated : Bool
  enrichedWritten : Bool
  deriving DecidableEq, Repr

/-- `processFolder`: skip when already enriched; fail with 'No metadata'
when metadata.json cannot be read or parsed; fail with 'No finalUrl' when
the parsed metadata lacks a truthy finalUrl; otherwise navigate, extract and
persist inside try/catch. -/
def processFolder (w : S2World) : RowResult × S2Effects :=
  if w.enrichedExists then (RowResult.skipped, ⟨false, false⟩)
  else
    match w.meta with
    | MetaRead.absent => (RowResult.failed "No metadata", ⟨false, false⟩)
    | MetaRead.corrupt => (RowResult.failed "No metadata", ⟨false, false⟩)
    | MetaRead.parsed m =>
      if jsTruthy m.finalUrl then
        match w.nav with
        | NavOutcome.err msg => (RowResult.failed msg, ⟨true, false⟩)
        | NavOutcome.ok _ =>
          match w.persistErr with
          | some msg => (RowResult.failed msg, ⟨true, false⟩)
          | none => (RowResult.done, ⟨true, true⟩)
      else (RowResult.failed "No finalUrl", ⟨false, false⟩)

/-! ## Lemmas about the retrying downloader -/

theorem runAttempts_calls_le (fetch : Nat → Option Body) (l : List Nat) :
    (runAttempts fetch l).fetchCalls.length ≤ l.length := by
  induction l with
  | nil => simp [runAttempts]
  | cons a rest ih =>
    simp only [runAttempts]
    cases hf : fetch a with
    | some b => simp
    | none =>
      by_cases hr : rest.isEmpty
      · simp [hr]
      · simpa [hr] using ih

theorem runAttempts_all_fail (fetch : Nat → Option Body) (l : List Nat)
    (h : ∀ a ∈ l, fetch a = none) :
    runAttempts fetch l =
      ⟨false, none, l.dropLast.map (fun a => 500 * a), l⟩ := by
  induction l with
  | nil => simp [runAttempts]
  | cons a rest ih =>
    have ha : fetch a = none := h a (by simp)
    simp only [runAttempts, ha]
    cases rest with
    | nil => simp
    | cons b rest' =>
      rw [ih (fun x hx => h x (by simp [hx]))]
      simp

theorem runAttempts_first_success (fetch : Nat → Option Body)
    (l₁ l₂ : List Nat) (a : Nat) (b : Body)
    (h₁ : ∀ x ∈ l₁, fetch x = none) (ha : fetch a = some b) :
    runAttempts fetch (l₁ ++ a :: l₂) =
      ⟨true, some b, l₁.map (fun x => 500 * x), l₁ ++ [a]⟩ := by
  induction l₁ with
  | nil => simp [runAttempts, ha]
  | cons x l₁' ih =>
    have hx : fetch x = none := h₁ x (by simp)
    simp only [List.cons_append, runAttempts, hx, List.append_eq]
    rw [ih (fun y hy => h₁ y (by simp [hy]))]
    simp

/-- C2: retry contract of `downloadFile`: at most `retries` (default 3)
fetch attempts are issued; the loop stops at the first successful attempt,
writing exactly that attempt's body; after each failed attempt except the
last it waits `attempt × 500` ms; and when every attempt fails it returns
`false` (no exception — a plain result) with nothing written to the
destination path. -/
theorem downloadFile_retry_contract (fetch : Nat → Option Body) (retries : Nat) :
    (downloadFile fetch retries).fetchCalls.length ≤ retries ∧
    (∀ k b, 1 ≤ k → k ≤ retries → (∀ j, 1 ≤ j → j < k → fetch j = none) →
      fetch k = some b →
      downloadFile fetch retries =
        ⟨true, some b, (List.range' 1 (k - 1)).map (fun a => 500 * a),
          List.range' 1 k⟩) ∧
    ((∀ a, 1 ≤ a → a ≤ retries → fetch a = none) →
      downloadFile fetch retries =
        ⟨false, none, (List.range' 1 (retries - 1)).map (fun a => 500 * a),
          List.range' 1 retries⟩) := by
  refine ⟨?_, ?_, ?_⟩
  · simpa [downloadFile] using runAttempts_calls_le fetch (List.range' 1 retries)
  · intro k b hk1 hk2 hprev hsucc
    have hdecomp : List.range' 1 retries =
        List.range' 1 (k - 1) ++ k :: List.range' (k + 1) (retries - k) := by
      have h1 : List.range' 1 (k - 1) ++ List.range' (1 + (k - 1)) (retries - k + 1) =
          List.range' 1 (retries - k + 1 + (k - 1)) := List.range'_append_1 1 (k - 1) _
      have h2 : 1 + (k - 1) = k := by omega
      have h3 : retries - k + 1 + (k - 1) = retries := by omega
      have h4 : retries - k + 1 = (retries - k) + 1 := rfl
      rw [h2, h3, h4, List.range'_succ] at h1
      exact h1.symm
    rw [downloadFile, hdecomp,
      runAttempts_first_success fetch _ _ k b
        (fun x hx => by
          rw [List.mem_range'_1] at hx
          exact hprev x hx.1 (by omega)) hsucc]
    have h5 : List.range' 1 (k - 1) ++ [k] = List.range' 1 k := by
      have := List.range'_1_concat 1 (k - 1)
      have h6 : k - 1 + 1 = k := by omega
      have h7 : 1 + (k - 1) = k := by omega
      rw [h6, h7] at this
      exact this.symm
    rw [h5]
  · intro hall
    rw [downloadFile,
      runAttempts_all_fail fetch _
        (fun a ha => by
          rw [List.mem_range'_1] at ha
          exact hall a ha.1 (by omega))]
    cases retries with
    | zero => simp
    | succ n =>
      have := List.range'_1_concat 1 n
      rw [this, List.dropLast_concat]
      simp

/-- Witness for C2: with a fetch behaviour that fails on attempt 1 and
succeeds on attempt 2, `downloadFile` at the default 3 retries stops after
two attempts, writes the fetched body, and waited 500 ms once. -/
theorem downloadFile_retry_contract_witness :
    downloadFile (fun j => if j = 2 then some [7] else none) MAX_RETRIES =
      ⟨true, some [7], [500], [1, 2]⟩ := by
  have h := (downloadFile_retry_contract
      (fun j => if j = 2 then some [7] else none) MAX_RETRIES).2.1 2 [7]
    (by decide) (by decide)
    (fun j h1 h2 => by
      have hj : j = 1 := by omega
      subst hj
      decide)
    (by decide)
  simpa using h

/-! ## Lemmas about the stage-1 skip check -/

theorem shouldSkip_iff (fs : Option (List String)) :
    shouldSkip fs = true ↔
      ∃ files, fs = some files ∧ "metadata.json" ∈ files ∧
        hasImages files = true := by
  cases fs with
  | none => simp [shouldSkip]
  | some files => simp [shouldSkip, List.contains_iff_exists_mem_beq]

theorem processRow_skipped_iff (w : RowWorld) :
    (processRow w).1 = RowResult.skipped ↔ shouldSkip w.folderFiles = true := by
  by_cases h : shouldSkip w.folderFiles = true
  · simp [processRow, h]
  · rw [Bool.not_eq_true] at h
    cases hnav : w.nav with
    | err msg => simp [processRow, h, hnav]
    | ok pd =>
      cases hp : w.persistErr with
      | none => simp [processRow, h, hnav, hp]
      | some msg => simp [processRow, h, hnav, hp]

/-- C1: a record is skipped (success with skipped true, no navigation, no
download attempts, no files or metadata written) iff its folder exists and
contains `metadata.json` together with at least one file ending in `.jpg` or
`.pdf`; a folder with metadata but no such asset file is reprocessed
(navigation is attempted). -/
theorem processRow_skip_resumability (w : RowWorld) :
    ((processRow w).1 = RowResult.skipped ↔
      ∃ files, w.folderFiles = some files ∧ "metadata.json" ∈ files ∧
        hasImages files = true) ∧
    ((processRow w).1 = RowResult.skipped → (processRow w).2 = noEffects) ∧
    ((processRow w).1 ≠ RowResult.skipped →
      (processRow w).2.navigated = true) := by
  refine ⟨(processRow_skipped_iff w).trans (shouldSkip_iff _), ?_, ?_⟩
  · intro h
    have hs := (processRow_skipped_iff w).mp h
    simp [processRow, hs]
  · intro h
    have hs : shouldSkip w.folderFiles = false := by
      rw [← Bool.not_eq_true]
      exact fun hc => h ((processRow_skipped_iff w).mpr hc)
    cases hnav : w.nav with
    | err msg => simp [processRow, hs, hnav]
    | ok pd =>
      cases hp : w.persistErr with
      | none => simp [processRow, hs, hnav, hp]
      | some msg => simp [processRow, hs, hnav, hp]

/-- Witness for C1: a folder holding `metadata.json` and `full.jpg` is
skipped; the same folder without the image is not. -/
theorem processRow_skip_resumability_witness :
    (processRow ⟨some ["metadata.json", "full.jpg"], NavOutcome.err "e",
        fun _ => false, none⟩).1 = RowResult.skipped ∧
    (processRow ⟨some ["metadata.json"], NavOutcome.err "e",
        fun _ => false, none⟩).1 ≠ RowResult.skipped := by
  constructor
  · exact (processRow_skip_resumability ⟨some ["metadata.json", "full.jpg"],
      NavOutcome.err "e", fun _ => false, none⟩).1.mpr
      ⟨["metadata.json", "full.jpg"], rfl, by decide, by decide⟩
  · intro h
    have := (processRow_skip_resumability ⟨some ["metadata.json"],
      NavOutcome.err "e", fun _ => false, none⟩).1.mp h
    obtain ⟨files, hf, -, himg⟩ := this
    cases hf
    exact absurd himg (by decide)

/-- C5: every non-skipped record whose navigation/extraction phase succeeds
has its metadata written whenever the write itself does not raise — with no
condition whatsoever on the per-asset download outcomes (`w.assetOk` is
universally quantified, covering the all-downloads-fail case). -/
theorem metadata_persisted_unconditionally (w : RowWorld) (pd : PageData)
    (hskip : shouldSkip w.folderFiles = false)
    (hnav : w.nav = NavOutcome.ok pd)
    (hpersist : w.persistErr = none) :
    (processRow w).2.metadataWritten = true ∧
    (processRow w).1 = RowResult.done := by
  simp [processRow, hskip, hnav, hpersist]

/-- Witness for C5: a record whose every asset download fails still gets its
metadata written. -/
theorem metadata_persisted_unconditionally_witness :
    (processRow ⟨some [], NavOutcome.ok ⟨[⟨"u", AssetType.jpg, none⟩]⟩,
        fun _ => false, none⟩).2.metadataWritten = true := by
  exact (metadata_persisted_unconditionally
    ⟨some [], NavOutcome.ok ⟨[⟨"u", AssetType.jpg, none⟩]⟩, fun _ => false, none⟩
    ⟨[⟨"u", AssetType.jpg, none⟩]⟩ (by decide) rfl rfl).1

/-! ## Batch-level counter lemmas -/

theorem statsStep_sum (s : Stats) (r : RowResult) :
    (statsStep s r).processed + (statsStep s r).skipped + (statsStep s r).failed =
      s.processed + s.skipped + s.failed + 1 := by
  cases r <;> simp [statsStep] <;> omega

theorem foldl_stats_sum (ws : List RowWorld) : ∀ s0 : Stats,
    ((ws.foldl (fun s w => statsStep s (processRow w).1) s0).processed +
     (ws.foldl (fun s w => statsStep s (processRow w).1) s0).skipped +
     (ws.foldl (fun s w => statsStep s (processRow w).1) s0).failed) =
      s0.processed + s0.skipped + s0.failed + ws.length := by
  induction ws with
  | nil => intro s0; simp
  | cons w rest ih =>
    intro s0
    simp only [List.foldl_cons, List.length_cons]
    rw [ih (statsStep s0 (processRow w).1), statsStep_sum]
    omega

/-- C8: per-record error containment.  An exception in the
navigate-and-extract phase, and an exception while persisting metadata, are
each caught at the record boundary and turned into a `failed` result
carrying the message; the loop counts a failed record and moves on, and
over any batch the three counters sum to the number of input records. -/
theorem record_error_containment :
    (∀ ws : List RowWorld,
      (runStage1 ws).processed + (runStage1 ws).skipped +
        (runStage1 ws).failed = ws.length) ∧
    (∀ w msg, shouldSkip w.folderFiles = false → w.nav = NavOutcome.err msg →
      (processRow w).1 = RowResult.failed msg) ∧
    (∀ w pd msg, shouldSkip w.folderFiles = false →
      w.nav = NavOutcome.ok pd → w.persistErr = some msg →
      (processRow w).1 = RowResult.failed msg) ∧
    (∀ s msg, statsStep s (RowResult.failed msg) =
      ⟨s.processed, s.skipped, s.failed + 1⟩) := by
  refine ⟨?_, ?_, ?_, ?_⟩
  · intro ws
    have h := foldl_stats_sum ws ⟨0, 0, 0⟩
    simpa [runStage1] using h
  · intro w msg hskip hnav
    simp [processRow, hskip, hnav]
  · intro w pd msg hskip hnav hp
    simp [processRow, hskip, hnav, hp]
  · intro s msg
    rfl

/-- Witness for C8: a two-record batch — one navigation failure, one
persistence failure — yields counters summing to 2, and each record's
exception became a `failed` result with its message. -/
theorem record_error_containment_witness :
    (runStage1 [⟨some [], NavOutcome.err "nav boom", fun _ => false, none⟩,
        ⟨none, NavOutcome.ok ⟨[]⟩, fun _ => false, some "disk full"⟩]).processed +
      (runStage1 [⟨some [], NavOutcome.err "nav boom", fun _ => false, none⟩,
        ⟨none, NavOutcome.ok ⟨[]⟩, fun _ => false, some "disk full"⟩]).skipped +
      (runStage1 [⟨some [], NavOutcome.err "nav boom", fun _ => false, none⟩,
        ⟨none, NavOutcome.ok ⟨[]⟩, fun _ => false, some "disk full"⟩]).failed = 2 ∧
    (processRow ⟨some [], NavOutcome.err "nav boom", fun _ => false, none⟩).1 =
      RowResult.failed "nav boom" ∧
    (processRow ⟨none, NavOutcome.ok ⟨[]⟩, fun _ => false, some "disk full"⟩).1 =
      RowResult.failed "disk full" := by
  refine ⟨record_error_containment.1 _, ?_, ?_⟩
  · exact record_error_containment.2.1 _ "nav boom" (by decide) rfl
  · exact record_error_containment.2.2.1 _ ⟨[]⟩ "disk full" (by decide) rfl rfl

/-- C6: stage-2 precondition.  For a folder not already enriched, absent
metadata fails the record with reason 'No metadata', and parsed metadata
whose `finalUrl` is falsy fails it with the distinct reason 'No finalUrl';
in both cases no navigation is attempted and no video-content.json is
written. -/
theorem stage2_precondition (w : S2World) (h : w.enrichedExists = false) :
    (w.meta = MetaRead.absent →
      processFolder w = (RowResult.failed "No metadata", ⟨false, false⟩)) ∧
    (∀ m, w.meta = MetaRead.parsed m → jsTruthy m.finalUrl = false →
      processFolder w = (RowResult.failed "No finalUrl", ⟨false, false⟩)) ∧
    ("No metadata" : String) ≠ "No finalUrl" := by
  refine ⟨?_, ?_, by decide⟩
  · intro hm
    simp [processFolder, h, hm]
  · intro m hm hu
    simp [processFolder, h, hm, hu]

/-- Witness for C6: concrete folders — one with no metadata, one whose
metadata has a `null` finalUrl — fail with the two distinct reasons. -/
theorem stage2_precondition_witness :
    processFolder ⟨false, MetaRead.absent, NavOutcome.ok ⟨[]⟩, none⟩ =
      (RowResult.failed "No metadata", ⟨false, false⟩) ∧
    processFolder ⟨false, MetaRead.parsed ⟨none⟩, NavOutcome.ok ⟨[]⟩, none⟩ =
      (RowResult.failed "No finalUrl", ⟨false, false⟩) := by
  constructor
  · exact (stage2_precondition ⟨false, MetaRead.absent, NavOutcome.ok ⟨[]⟩, none⟩
      rfl).1 rfl
  · exact (stage2_precondition ⟨false, MetaRead.parsed ⟨none⟩,
      NavOutcome.ok ⟨[]⟩, none⟩ rfl).2.1 ⟨none⟩ rfl rfl

/-- C10: a metadata.json that exists but cannot be parsed is handled
identically to an absent one — same 'No metadata' failure, no navigation,
no video-content.json written — so corrupt and absent precursor metadata
are indistinguishable at the record-result interface. -/
theorem stage2_corrupt_eq_absent (nav : NavOutcome) (perr : Option String) :
    processFolder ⟨false, MetaRead.corrupt, nav, perr⟩ =
      processFolder ⟨false, MetaRead.absent, nav, perr⟩ ∧
    processFolder ⟨false, MetaRead.corrupt, nav, perr⟩ =
      (RowResult.failed "No metadata", ⟨false, false⟩) := by
  constructor <;> simp [processFolder]

/-- C3: asset filename classification.  A pdf asset gets `image.pdf`
regardless of resolution; a jpg asset with a parsed width is bucketed at
2000/800/300 into `full.jpg` / `thumb_1000.jpg` / `thumb_400.jpg` /
`thumb_200.jpg`; a jpg asset with no resolution gets the index-suffixed
generic name; and the claim's four concrete resolutions land where stated. -/
theorem classifyFilename_spec :
    (∀ (d : AssetDescriptor) (c : Nat), d.type = AssetType.pdf →
      classifyFilename d c = "image.pdf") ∧
    (∀ (d : AssetDescriptor) (c : Nat) (res : String) (w : Nat),
      d.type = AssetType.jpg → d.resolution = some res → widthOf res = some w →
      (2000 ≤ w → classifyFilename d c = "full.jpg") ∧
      (800 ≤ w → w < 2000 → classifyFilename d c = "thumb_1000.jpg") ∧
      (300 ≤ w → w < 800 → classifyFilename d c = "thumb_400.jpg") ∧
      (w < 300 → classifyFilename d c = "thumb_200.jpg")) ∧
    (∀ (d : AssetDescriptor) (c : Nat), d.type = AssetType.jpg →
      d.resolution = none →
      classifyFilename d c = "image_" ++ toString c ++ ".jpg") ∧
    classifyFilename ⟨"u", AssetType.jpg, some "2400x3000"⟩ 0 = "full.jpg" ∧
    classifyFilename ⟨"u", AssetType.jpg, some "1000x800"⟩ 0 = "thumb_1000.jpg" ∧
    classifyFilename ⟨"u", AssetType.jpg, some "500x400"⟩ 0 = "thumb_400.jpg" ∧
    classifyFilename ⟨"u", AssetType.jpg, some "150x150"⟩ 0 = "thumb_200.jpg" ∧
    classifyFilename ⟨"u", AssetType.pdf, some "2400x3000"⟩ 0 = "image.pdf" := by
  refine ⟨?_, ?_, ?_, by decide, by decide, by decide, by decide, by decide⟩
  · intro d c hty
    simp [classifyFilename, hty]
  · intro d c res w hty hres hw
    refine ⟨?_, ?_, ?_, ?_⟩
    · intro h1
      simp [classifyFilename, hty, hres, hw, jsGe]
      split_ifs <;> first | rfl | omega
    · intro h1 h2
      simp [classifyFilename, hty, hres, hw, jsGe]
      split_ifs <;> first | rfl | omega
    · intro h1 h2
      simp [classifyFilename, hty, hres, hw, jsGe]
      split_ifs <;> first | rfl | omega
    · intro h1
      simp [classifyFilename, hty, hres, hw, jsGe]
      split_ifs <;> first | rfl | omega
  · intro d c hty hres
    simp [classifyFilename, hty, hres]

/-- Witness for C3: instantiation at concrete descriptors for each branch,
including a width (1500) strictly between the buckets' sample points. -/
theorem classifyFilename_spec_witness :
    classifyFilename ⟨"u", AssetType.pdf, none⟩ 5 = "image.pdf" ∧
    classifyFilename ⟨"u", AssetType.jpg, some "1500x900"⟩ 0 = "thumb_1000.jpg" ∧
    classifyFilename ⟨"u", AssetType.jpg, none⟩ 3 = "image_3.jpg" := by
  refine ⟨classifyFilename_spec.1 ⟨"u", AssetType.pdf, none⟩ 5 rfl, ?_, ?_⟩
  · exact ((classifyFilename_spec.2.1 ⟨"u", AssetType.jpg, some "1500x900"⟩ 0
      "1500x900" 1500 rfl rfl (by decide)).2.1 (by omega) (by omega))
  · have h := classifyFilename_spec.2.2.1 ⟨"u", AssetType.jpg, none⟩ 3 rfl rfl
    simpa using h

/-! ## Lemmas about the download loop's filename assignment -/

theorem downloadLoop_assigned_getElem (l : List AssetDescriptor) :
    ∀ (ok : Nat → Bool) (idx count i : Nat),
      (downloadLoop ok idx count l).assigned[i]? =
        (l[i]?).map (fun d =>
          classifyFilename d (count + (List.range' idx i).countP ok)) := by
  induction l with
  | nil => intro ok idx count i; simp [downloadLoop]
  | cons d rest ih =>
    intro ok idx count i
    cases i with
    | zero => by_cases hk : ok idx <;> simp [downloadLoop, hk]
    | succ i =>
      by_cases hk : ok idx
      · have hc : count + 1 + (List.range' (idx + 1) i).countP ok =
            count + (List.range' idx (i + 1)).countP ok := by
          rw [List.range'_succ, List.countP_cons, hk]
          simp
          omega
        simp only [downloadLoop, hk, if_true, List.getElem?_cons_succ]
        rw [ih ok (idx + 1) (count + 1) i, hc]
      · have hc : count + (List.range' (idx + 1) i).countP ok =
            count + (List.range' idx (i + 1)).countP ok := by
          rw [List.range'_succ, List.countP_cons]
          simp [hk]
        simp only [downloadLoop, hk, if_false, Bool.false_eq_true,
          List.getElem?_cons_succ]
        rw [ih ok (idx + 1) count i, hc]

/-- C9: the index in `image_<n>.jpg` is the number of previously successful
downloads in the record, not the asset's list position: in general the name
assigned to the resolution-less jpg asset at position `i` carries the count
of successes among positions `0..i-1`; concretely, with two resolution-less
assets where the first download fails and the second succeeds, both are
assigned `image_0.jpg` (the second is NOT given its position-based name
`image_1.jpg`), and the succeeding later download writes to the very
destination assigned to the earlier one. -/
theorem genericIndex_counts_prior_successes :
    (∀ (l : List AssetDescriptor) (ok : Nat → Bool) (i : Nat)
      (d : AssetDescriptor), l[i]? = some d →
      d.type = AssetType.jpg → d.resolution = none →
      (downloadLoop ok 0 0 l).assigned[i]? =
        some ("image_" ++ toString ((List.range' 0 i).countP ok) ++ ".jpg")) ∧
    (downloadLoop (fun i => i == 1) 0 0
        [⟨"u", AssetType.jpg, none⟩, ⟨"v", AssetType.jpg, none⟩] =
      ⟨1, ["image_0.jpg", "image_0.jpg"], ["image_0.jpg"]⟩) ∧
    ("image_0.jpg" : String) ≠ "image_1.jpg" := by
  refine ⟨?_, by decide, by decide⟩
  intro l ok i d hd hty hres
  rw [downloadLoop_assigned_getElem l ok 0 0 i, hd]
  simp [classifyFilename, hty, hres]

/-- Witness for C9: in the two-asset scenario the asset at position 1 is
assigned `image_0.jpg`. -/
theorem genericIndex_counts_prior_successes_witness :
    (downloadLoop (fun i => i == 1) 0 0
        [⟨"u", AssetType.jpg, none⟩, ⟨"v", AssetType.jpg, none⟩]).assigned[1]? =
      some "image_0.jpg" := by
  have h := genericIndex_counts_prior_successes.1
    [⟨"u", AssetType.jpg, none⟩, ⟨"v", AssetType.jpg, none⟩]
    (fun i => i == 1) 1 ⟨"v", AssetType.jpg, none⟩ (by decide) rfl rfl
  rw [h]
  decide

/-! ## Every file the download loop writes is an image file -/

theorem classifyFilename_ends (d : AssetDescriptor) (c : Nat) :
    endsWithExt (classifyFilename d c) ".jpg" = true ∨
    endsWithExt (classifyFilename d c) ".pdf" = true := by
  by_cases hty : d.type = AssetType.pdf
  · right
    simp [classifyFilename, hty]
    decide
  · cases hres : d.resolution with
    | some res =>
      left
      simp only [classifyFilename, hty, if_false, hres]
      split_ifs <;> decide
    | none =>
      left
      simp only [classifyFilename, hty, if_false, hres]
      simp only [endsWithExt, String.data_append, List.isSuffixOf_iff_suffix]
      exact (List.suffix_append (toString c).data
        ['.', 'j', 'p', 'g']).trans
        (List.suffix_append ['i', 'm', 'a', 'g', 'e', '_'] _)

theorem downloadLoop_written_ends (l : List AssetDescriptor) :
    ∀ (ok : Nat → Bool) (idx count : Nat) (f : String),
      f ∈ (downloadLoop ok idx count l).written →
      endsWithExt f ".jpg" = true ∨ endsWithExt f ".pdf" = true := by
  induction l with
  | nil => intro ok idx count f hf; simp [downloadLoop] at hf
  | cons d rest ih =>
    intro ok idx count f hf
    by_cases hk : ok idx
    · simp only [downloadLoop, hk, if_true, List.mem_cons] at hf
      rcases hf with rfl | hf
      · exact classifyFilename_ends d count
      · exact ih ok (idx + 1) (count + 1) f hf
    · simp only [downloadLoop, hk, if_false, Bool.false_eq_true] at hf
      exact ih ok (idx + 1) count f hf

theorem processRow_files_ends (w : RowWorld) (f : String)
    (hf : f ∈ (processRow w).2.filesWritten) :
    endsWithExt f ".jpg" = true ∨ endsWithExt f ".pdf" = true := by
  by_cases hs : shouldSkip w.folderFiles = true
  · simp [processRow, hs, noEffects] at hf
  · rw [Bool.not_eq_true] at hs
    cases hnav : w.nav with
    | err msg => simp [processRow, hs, hnav] at hf
    | ok pd =>
      cases hp : w.persistErr with
      | none =>
        simp only [processRow, hs, hnav, hp, Bool.false_eq_true,
          if_false] at hf
        exact downloadLoop_written_ends pd.downloads w.assetOk 0 0 f hf
      | some msg =>
        simp only [processRow, hs, hnav, hp, Bool.false_eq_true,
          if_false] at hf
        exact downloadLoop_written_ends pd.downloads w.assetOk 0 0 f hf

/-- C4: stage-1 idempotence.  If a record ran to `done` and at least one of
its asset downloads succeeded, then on a second run over the resulting
folder state (the written files plus `metadata.json`, with no intervening
filesystem change) the record is skipped: no navigation, no download
attempts, no file or metadata writes, and the batch counters record a skip,
not a processed record. -/
theorem stage1_idempotent (w w₂ : RowWorld)
    (hdone : (processRow w).1 = RowResult.done)
    (hfiles : (processRow w).2.filesWritten ≠ [])
    (hfold : w₂.folderFiles = some (folderAfterRun w)) :
    (processRow w₂).1 = RowResult.skipped ∧
    (processRow w₂).2 = noEffects ∧
    ∀ s : Stats, statsStep s (processRow w₂).1 =
      ⟨s.processed, s.skipped + 1, s.failed⟩ := by
  obtain ⟨f, hf⟩ := List.exists_mem_of_ne_nil _ hfiles
  have hends := processRow_files_ends w f hf
  have hskip : shouldSkip w₂.folderFiles = true := by
    rw [hfold, shouldSkip_iff]
    refine ⟨folderAfterRun w, rfl, List.mem_cons_self _ _, ?_⟩
    rw [hasImages, List.any_eq_true]
    refine ⟨f, ?_, ?_⟩
    · exact List.mem_cons_of_mem _ (List.mem_append_left _ hf)
    · rcases hends with h | h <;> simp [h]
  have hres : (processRow w₂).1 = RowResult.skipped :=
    (processRow_skipped_iff w₂).mpr hskip
  refine ⟨hres, ?_, ?_⟩
  · simp [processRow, hskip]
  · intro s
    rw [hres]
    rfl

/-- Witness for C4: a record that downloaded `full.jpg` and wrote metadata
on the first run is skipped on the second run over the updated folder. -/
theorem stage1_idempotent_witness :
    (processRow ⟨some (folderAfterRun ⟨some [],
        NavOutcome.ok ⟨[⟨"u", AssetType.jpg, some "2400x3000"⟩]⟩,
        fun _ => true, none⟩),
      NavOutcome.ok ⟨[⟨"u", AssetType.jpg, some "2400x3000"⟩]⟩,
      fun _ => true, none⟩).1 = RowResult.skipped := by
  exact (stage1_idempotent
    ⟨some [], NavOutcome.ok ⟨[⟨"u", AssetType.jpg, some "2400x3000"⟩]⟩,
      fun _ => true, none⟩
    ⟨some (folderAfterRun ⟨some [],
        NavOutcome.ok ⟨[⟨"u", AssetType.jpg, some "2400x3000"⟩]⟩,
        fun _ => true, none⟩),
      NavOutcome.ok ⟨[⟨"u", AssetType.jpg, some "2400x3000"⟩]⟩,
      fun _ => true, none⟩
    (by decide) (by decide) rfl).1

/-! ## Lemmas about the date-key derivation -/

theorem monthLookup_mem (s mm : String) (h : monthLookup s = some mm) :
    mm ∈ ["01", "02", "03", "04", "05", "06",
      "07", "08", "09", "10", "11", "12"] := by
  unfold monthLookup at h
  obtain ⟨p, hp, hpm⟩ : ∃ p, MONTHS.find? (fun q => q.1 = s) = some p ∧
      p.2 = mm := by
    cases hfind : MONTHS.find? (fun q => q.1 = s) with
    | none => rw [hfind] at h; simp at h
    | some p =>
      rw [hfind] at h
      simp at h
      exact ⟨p, rfl, h⟩
  have hmem := List.mem_of_find?_eq_some hp
  have h2 : p.2 ∈ MONTHS.map Prod.snd := List.mem_map_of_mem _ hmem
  rw [hpm] at h2
  simpa [MONTHS] using h2

theorem padStart2_length (d : List Char) (h1 : d ≠ []) (h2 : d.length ≤ 2) :
    (padStart2 d).length = 2 := by
  have h3 : d.length ≠ 0 := by simpa using h1
  unfold padStart2
  split_ifs with h
  · omega
  · simp only [List.length_append, List.length_replicate]
    omega

theorem padStart2_digits (d : List Char)
    (hd : ∀ c ∈ d, c.isDigit = true) :
    ∀ c ∈ padStart2 d, c.isDigit = true := by
  unfold padStart2
  split_ifs with h
  · exact hd
  · intro c hc
    rcases List.mem_append.mp hc with h1 | h1
    · rw [List.eq_of_mem_replicate h1]
      decide
    · exact hd c h1

/-- C7: date-key derivation.  `parseDateToFolder` is a pure function (hence
deterministic); on the claim's examples it yields `01-01` and `12-31`; and
for any date string whose space-split is a known English month name followed
by a short digit day, the result is `<MM>-<DD>` where `MM` is that month's
two-digit code (one of 01..12) and `DD` is the day zero-padded to exactly
two digits. -/
theorem parseDateToFolder_spec :
    parseDateToFolder "January 1 2019" = some "01-01" ∧
    parseDateToFolder "December 31 2020" = some "12-31" ∧
    ∀ (s : String) (m d : List Char) (rest : List (List Char)) (mm : String),
      splitOnSpace s.data = m :: d :: rest →
      monthLookup (String.mk m) = some mm →
      d ≠ [] → d.length ≤ 2 → (∀ c ∈ d, c.isDigit = true) →
      parseDateToFolder s = some (String.mk (mm.data ++ '-' :: padStart2 d)) ∧
      mm ∈ ["01", "02", "03", "04", "05", "06",
        "07", "08", "09", "10", "11", "12"] ∧
      (padStart2 d).length = 2 ∧ ∀ c ∈ padStart2 d, c.isDigit = true := by
  refine ⟨by decide, by decide, ?_⟩
  intro s m d rest mm hsplit hmm hne hlen hdig
  refine ⟨?_, monthLookup_mem _ _ hmm, padStart2_length d hne hlen,
    padStart2_digits d hdig⟩
  rw [parseDateToFolder, hsplit]
  simp [hmm]

/-- Witness for C7: the general clause applied to "March 5 2021" gives
folder key "03-05". -/
theorem parseDateToFolder_spec_witness :
    parseDateToFolder "March 5 2021" = some "03-05" := by
  have h := parseDateToFolder_spec.2.2 "March 5 2021" "March".data "5".data
    ["2021".data] "03" (by decide) (by decide) (by decide) (by decide)
    (by decide)
  rw [h.1]
  decide

end HstBday
